import Mathlib

/-!
# Employee CRUD API — shallow embedding

This file embeds the employee-records REST service (Django / DRF) in Lean:

* `src/employees/models.py` — the `Employee` model, its choice enumerations,
  `Employee.clean` (email normalisation) and the `save` override;
* `src/employees/serializers.py` — `EmployeeSerializer` (update),
  `EmployeeCreateSerializer` (create), `EmployeeListSerializer` (list
  projection), with their `validate_*` methods;
* `src/employees/views.py` — `EmployeeListCreateView` (filter backends,
  search, ordering, pagination, `create`, `list`) and
  `EmployeeRetrieveUpdateDestroyView` (`update`, `partial_update`);
* `src/employees/pagination.py` — `EmployeePagination` page-size policy.

Python strings are modelled as `List Nat` (character code points); `str.lower`
and `str.strip` are modelled character-wise over ASCII, matching Python's
behaviour on the ASCII inputs the claims are about.  The relational store is a
`List Employee` kept in insertion order (SQLite rowid order); querysets are
functions over that list, and `order_by` is a stable sort, which is how the
backing engine behaves on the single-table queries this service issues.
Django's `EmailValidator` regular expression and the field `max_length`
validators are not modelled: no claim under verification depends on the email
grammar, only on presence, normalisation and uniqueness (the checks written
out in `serializers.py`).
-/

namespace EmployeeApi

/-- Python strings as lists of code points. -/
abbrev Str := List Nat

/-- Code points of a Lean string literal, used to write concrete inputs. -/
def str (s : String) : Str := s.toList.map Char.toNat

/-- `str.lower` on one ASCII character (`A`–`Z` maps to `a`–`z`). -/
def pyLowerChar (n : Nat) : Nat := if 65 ≤ n ∧ n ≤ 90 then n + 32 else n

/-- `str.lower`. -/
def pyLower (s : Str) : Str := s.map pyLowerChar

/-- Python `str.isspace` characters stripped by `str.strip()` (ASCII). -/
def isSpace (n : Nat) : Bool := n == 32 || n == 9 || n == 10 || n == 13 || n == 11 || n == 12

/-- Remove trailing whitespace. -/
def trimRight (s : Str) : Str := List.rdropWhile isSpace s

/-- `str.strip()`: remove leading and trailing whitespace. -/
def pyStrip (s : Str) : Str := trimRight (s.dropWhile isSpace)

/-- `value.lower().strip()` — the normalisation applied by
`validate_email` (serializers.py:57,162) and `Employee.clean` (models.py:119),
in the order the source applies it. -/
def pyNormEmail (s : Str) : Str := pyStrip (pyLower s)

/-- Python truthiness of an optional string (`None` and `''` are falsy). -/
def truthyOpt : Option Str → Bool
  | none => false
  | some s => !s.isEmpty

/-- `department` choices (models.py:57-64): (stored value, display label). -/
def departmentChoices : List (Str × Str) :=
  [(str "HR", str "Human Resources"), (str "Engineering", str "Engineering"),
   (str "Sales", str "Sales"), (str "Marketing", str "Marketing"),
   (str "Finance", str "Finance"), (str "Operations", str "Operations")]

/-- `role` choices (models.py:73-80). -/
def roleChoices : List (Str × Str) :=
  [(str "Manager", str "Manager"), (str "Developer", str "Developer"),
   (str "Analyst", str "Analyst"), (str "Designer", str "Designer"),
   (str "Lead", str "Team Lead"), (str "Intern", str "Intern")]

/-- The stored values of a choice list (keys of `dict(choices)`). -/
def choiceKeys (cs : List (Str × Str)) : List Str := cs.map (·.1)

/-- Django `_get_FIELD_display` on one value: `dict(choices).get(value, value)`. -/
def lookupChoice (cs : List (Str × Str)) (s : Str) : Str :=
  ((cs.find? (fun p => p.1 == s)).map (·.2)).getD s

/-- The `Employee` row (models.py:12-101).  `department` and `role` are
nullable; `date_joined` is a day number (`DateField`, `auto_now_add`). -/
structure Employee where
  id : Nat
  name : Str
  email : Str
  department : Option Str
  role : Option Str
  date_joined : Nat
deriving DecidableEq

/-- `get_department_display()` as read by `EmployeeSerializer` through
`source='get_department_display'`: `None` stays `None` (DRF serialises a
`None` attribute as `null`); a stored value maps through the choice dict. -/
def departmentRawDisplay (e : Employee) : Option Str :=
  e.department.map (lookupChoice departmentChoices)

/-- `get_role_display()` for the detail serializer, as above. -/
def roleRawDisplay (e : Employee) : Option Str :=
  e.role.map (lookupChoice roleChoices)

/-- The model property `Employee.department_display` (models.py:126-129):
`get_department_display() if self.department else 'Not Assigned'`. -/
def departmentDisplayProp (e : Employee) : Str :=
  if truthyOpt e.department then lookupChoice departmentChoices (e.department.getD [])
  else str "Not Assigned"

/-- The model property `Employee.role_display` (models.py:131-134). -/
def roleDisplayProp (e : Employee) : Str :=
  if truthyOpt e.role then lookupChoice roleChoices (e.role.getD [])
  else str "Not Assigned"

/-- Output of `EmployeeSerializer` (serializers.py:5-37): the full-detail
projection.  `department_display`/`role_display` read `get_*_display`. -/
structure DetailProj where
  id : Nat
  name : Str
  email : Str
  department : Option Str
  department_display : Option Str
  role : Option Str
  role_display : Option Str
  date_joined : Nat
deriving DecidableEq

/-- Output of `EmployeeListSerializer` (serializers.py:113-140): the list
projection.  `department_name`/`role_name` read the model properties
`department_display`/`role_display`, which substitute `'Not Assigned'`. -/
structure ListProj where
  id : Nat
  name : Str
  email : Str
  department : Option Str
  department_name : Str
  role : Option Str
  role_name : Str
  date_joined : Nat
deriving DecidableEq

/-- `EmployeeSerializer(e).data`. -/
def detailProjection (e : Employee) : DetailProj :=
  { id := e.id, name := e.name, email := e.email,
    department := e.department, department_display := departmentRawDisplay e,
    role := e.role, role_display := roleRawDisplay e,
    date_joined := e.date_joined }

/-- `EmployeeListSerializer(e).data`. -/
def listProjection (e : Employee) : ListProj :=
  { id := e.id, name := e.name, email := e.email,
    department := e.department, department_name := departmentDisplayProp e,
    role := e.role, role_name := roleDisplayProp e,
    date_joined := e.date_joined }

/-! ## Validation layer (serializers.py) -/

/-- Field names used for error keys. -/
def fName : Str := str "name"

/-- Field key `email`. -/
def fEmail : Str := str "email"

/-- Field key `department`. -/
def fDepartment : Str := str "department"

/-- Field key `role`. -/
def fRole : Str := str "role"

/-- DRF's error for a missing required field. -/
def msgRequired : Str := str "This field is required."

/-- `EmployeeCreateSerializer.validate_name` (serializers.py:153-156). -/
def validate_name_create (v : Str) : Except Str Str :=
  if v.isEmpty || (pyStrip v).isEmpty then .error (str "Name cannot be empty.")
  else .ok (pyStrip v)

/-- `EmployeeSerializer.validate_name` (serializers.py:39-47). -/
def validate_name_upd (v : Str) : Except Str Str :=
  if v.isEmpty || (pyStrip v).isEmpty then
    .error (str "Name cannot be empty or contain only whitespace.")
  else .ok (pyStrip v)

/-- The shared email validator body.  With `exclude = some i` it is
`EmployeeSerializer.validate_email` (serializers.py:49-66), whose queryset is
`filter(email=value).exclude(id=instance_id)`; with `exclude = none` it is
both `EmployeeCreateSerializer.validate_email` (serializers.py:158-169, plain
`filter(email=value)`) and the update serializer with no instance
(`exclude(id=None)` excludes no row, every `id` being non-null). -/
def validate_email_core (db : List Employee) (exclude : Option Nat) (v : Str) :
    Except Str Str :=
  if v.isEmpty then .error (str "Email is required.")
  else if db.any (fun e => e.email == pyStrip (pyLower v) &&
      (match exclude with | none => true | some i => e.id != i)) then
    .error (str "An employee with this email already exists.")
  else .ok (pyStrip (pyLower v))

/-- `validate_department` (serializers.py:68-76): only a truthy value outside
`dict(choices)` is rejected. -/
def validate_department (v : Option Str) : Except Str (Option Str) :=
  if truthyOpt v && !((choiceKeys departmentChoices).contains (v.getD [])) then
    .error (str "Invalid department. Choose from: HR, Engineering, Sales, Marketing, Finance, Operations.")
  else .ok v

/-- `validate_role` (serializers.py:78-86). -/
def validate_role (v : Option Str) : Except Str (Option Str) :=
  if truthyOpt v && !((choiceKeys roleChoices).contains (v.getD [])) then
    .error (str "Invalid role. Choose from: Manager, Developer, Analyst, Designer, Lead, Intern.")
  else .ok v

/-- A request body.  A field is `none` when absent from the payload.
`department`/`role` may be supplied as `null` (inner `none`).  `reqId` and
`req_date_joined` stand for client-supplied `id`/`date_joined` values: `id`
and `date_joined` are `read_only` on `EmployeeSerializer`
(serializers.py:11-13,37) and not listed in `EmployeeCreateSerializer.Meta.fields`
(serializers.py:149-151), so no code below reads them. -/
structure ApiReq where
  name : Option Str
  email : Option Str
  department : Option (Option Str)
  role : Option (Option Str)
  reqId : Option Nat
  req_date_joined : Option Nat
deriving DecidableEq

/-- The PATCH body with no fields. -/
def emptyReq : ApiReq := ⟨none, none, none, none, none, none⟩

/-- One `(field, message)` entry per failed field, in serializer field order
(DRF collects all field errors rather than stopping at the first). -/
def errOf (f : Str) (r : Except Str α) : List (Str × Str) :=
  match r with
  | .error m => [(f, m)]
  | .ok _ => []

/-- `validated_data` of a successful `EmployeeCreateSerializer.is_valid()`. -/
structure ValidatedCreate where
  name : Str
  email : Str
  department : Option Str
  role : Option Str
deriving DecidableEq

/-- The `name` field result on create: required, then `validate_name`. -/
def createFieldName (req : ApiReq) : Except Str Str :=
  match req.name with
  | none => .error msgRequired
  | some v => validate_name_create v

/-- The `email` field result on create: required, then `validate_email`. -/
def createFieldEmail (db : List Employee) (req : ApiReq) : Except Str Str :=
  match req.email with
  | none => .error msgRequired
  | some v => validate_email_core db none v

/-- The `department` field result: optional, then `validate_department`. -/
def createFieldDept (req : ApiReq) : Except Str (Option Str) :=
  match req.department with
  | none => .ok none
  | some v => validate_department v

/-- The `role` field result: optional, then `validate_role`. -/
def createFieldRole (req : ApiReq) : Except Str (Option Str) :=
  match req.role with
  | none => .ok none
  | some v => validate_role v

/-- Run `EmployeeCreateSerializer` validation: `name` and `email` are required
(model `blank=False`), `department`/`role` optional; each supplied field goes
through its `validate_<field>` method and errors are collected per field. -/
def runCreateValidation (db : List Employee) (req : ApiReq) :
    Except (List (Str × Str)) ValidatedCreate :=
  match createFieldName req, createFieldEmail db req,
        createFieldDept req, createFieldRole req with
  | .ok n, .ok e, .ok d, .ok r => .ok ⟨n, e, d, r⟩
  | nR, eR, dR, rR =>
      .error (errOf fName nR ++ errOf fEmail eR ++
              errOf fDepartment dR ++ errOf fRole rR)

/-- `validated_data` of `EmployeeSerializer.is_valid()` on an update: a field
absent from the payload is absent from `validated_data`. -/
structure ValidatedUpdate where
  name : Option Str
  email : Option Str
  department : Option (Option Str)
  role : Option (Option Str)
deriving DecidableEq

/-- A required field on update: absent is an error for PUT, skipped for PATCH
(`partial=True`). -/
def updField (isPatch : Bool) (validate : Str → Except Str Str) (v : Option Str) :
    Except Str (Option Str) :=
  match v with
  | none => if isPatch then .ok none else .error msgRequired
  | some x => (validate x).map some

/-- Run `EmployeeSerializer` validation against instance `iid`
(serializers.py:39-93); `isPatch` is DRF's `partial` flag
(views.py:326,348-353). -/
def runUpdateValidation (db : List Employee) (iid : Nat) (isPatch : Bool)
    (req : ApiReq) : Except (List (Str × Str)) ValidatedUpdate :=
  match updField isPatch validate_name_upd req.name,
        updField isPatch (validate_email_core db (some iid)) req.email,
        (match req.department with
         | none => Except.ok none
         | some v => (validate_department v).map some),
        (match req.role with
         | none => Except.ok none
         | some v => (validate_role v).map some) with
  | .ok n, .ok e, .ok d, .ok r => .ok ⟨n, e, d, r⟩
  | nR, eR, dR, rR =>
      .error (errOf fName nR ++ errOf fEmail eR ++
              errOf fDepartment dR ++ errOf fRole rR)

/-! ## Store operations (models.py, serializers.py create/update, views.py) -/

/-- `Employee.clean` (models.py:109-119) as run by `save` → `full_clean`:
normalises a truthy email to `lower().strip()`.  (The `name` branch only
raises on whitespace-only names, which serializer validation has already
excluded; the email grammar check of `full_clean` is likewise already
satisfied here and is not modelled.) -/
def modelClean (e : Employee) : Employee :=
  if e.email.isEmpty then e else { e with email := pyStrip (pyLower e.email) }

/-- The next `AutoField` primary key for an insert. -/
def nextId (db : List Employee) : Nat := (db.map (·.id)).foldr max 0 + 1

/-- `EmployeeListCreateView.create` (views.py:159-180): validate with
`EmployeeCreateSerializer`; on success `Employee.objects.create(**validated_data)`
(serializers.py:95-99) runs `save` (hence `clean`) and appends the row, and
the response is the full `EmployeeSerializer` projection of the new row;
on failure respond with the error mapping and leave the store unchanged. -/
def createEmployee (db : List Employee) (today : Nat) (req : ApiReq) :
    Except (List (Str × Str)) DetailProj × List Employee :=
  match runCreateValidation db req with
  | .error es => (.error es, db)
  | .ok v =>
      let e := modelClean
        { id := nextId db, name := v.name, email := v.email,
          department := v.department, role := v.role, date_joined := today }
      (.ok (detailProjection e), db ++ [e])

/-- Failure modes of update: missing row (404) or validation errors (400). -/
inductive UpdateFail where
  | notFound : UpdateFail
  | invalid : List (Str × Str) → UpdateFail
deriving DecidableEq

/-- `EmployeeRetrieveUpdateDestroyView.update` (views.py:319-346) together
with `EmployeeSerializer.update` (serializers.py:101-110): look up the row by
pk; validate; overwrite each field with `validated_data.get(field,
instance.field)`; `instance.save()` re-runs `clean`; the row is replaced in
place and the response is the detail projection.  `partial_update`
(views.py:348-353) is the same call with `isPatch = true`. -/
def updateEmployee (db : List Employee) (rid : Nat) (isPatch : Bool)
    (req : ApiReq) : Except UpdateFail DetailProj × List Employee :=
  match db.find? (fun e => e.id == rid) with
  | none => (.error .notFound, db)
  | some inst =>
      match runUpdateValidation db inst.id isPatch req with
      | .error es => (.error (.invalid es), db)
      | .ok v =>
          let e' := modelClean
            { inst with
              name := v.name.getD inst.name,
              email := v.email.getD inst.email,
              department := v.department.getD inst.department,
              role := v.role.getD inst.role }
          (.ok (detailProjection e'), db.map fun e => if e.id == rid then e' else e)

/-! ## Query pipeline (views.py:141-149,182-194; pagination.py) -/

/-- Query parameters of a List request.  `page` and `page_size` are
three-valued: absent, present but not an integer literal, or an integer. -/
structure ListParams where
  department : Option Str
  role : Option Str
  search : Option Str
  ordering : Option Str
  page : Option Int
  page_size : Option (Option Int)
deriving DecidableEq

/-- A List request with no query parameters. -/
def noParams : ListParams := ⟨none, none, none, none, none, none⟩

/-- Split a string at the separator characters selected by `p`. -/
def splitByAux (p : Nat → Bool) : Str → Str → List Str
  | cur, [] => [cur.reverse]
  | cur, c :: rest =>
      if p c then cur.reverse :: splitByAux p [] rest
      else splitByAux p (c :: cur) rest

/-- Split a string at separator characters. -/
def splitBy (p : Nat → Bool) (s : Str) : List Str := splitByAux p [] s

/-- Does `needle` occur at the head of the second string? -/
def leadMatch : Str → Str → Bool
  | [], _ => true
  | _ :: _, [] => false
  | a :: as, b :: bs => a == b && leadMatch as bs

/-- Substring test (Python `in`). -/
def strHasSub (needle : Str) : Str → Bool
  | [] => leadMatch needle []
  | c :: rest => leadMatch needle (c :: rest) || strHasSub needle rest

/-- Django `icontains`: case-insensitive substring match. -/
def icontains (hay needle : Str) : Bool := strHasSub (pyLower needle) (pyLower hay)

/-- Modelled from the spec: the `DjangoFilterBackend` stage for
`filterset_fields = ['department', 'role']` (views.py:146).  The backend
itself, and the `django-filter` version pin that fixes its treatment of
values outside the choice lists, are not under `src/`; per the spec
(§4.2) each parameter is an exact-match filter and "unrecognized values
yield an empty result set (not an error)", which is what an exact match
against rows restricted to the enumerations produces.  An empty parameter
value is ignored, as the backend skips empty filter values. -/
def applyDeptFilter (p : ListParams) (q : List Employee) : List Employee :=
  match p.department with
  | none => q
  | some d => if d.isEmpty then q else q.filter (fun e => e.department == some d)

/-- The `role` half of the same backend. -/
def applyRoleFilter (p : ListParams) (q : List Employee) : List Employee :=
  match p.role with
  | none => q
  | some r => if r.isEmpty then q else q.filter (fun e => e.role == some r)

/-- Both exact-match filters of the backend, `department` then `role`. -/
def applyDeptRoleFilter (p : ListParams) (q : List Employee) : List Employee :=
  applyRoleFilter p (applyDeptFilter p q)

/-- DRF `SearchFilter` terms: the query value with commas treated as spaces,
split on whitespace, empty pieces dropped. -/
def searchTerms (s : Str) : List Str :=
  (splitBy (fun c => isSpace c || c == 44) s).filter (fun t => !t.isEmpty)

/-- DRF `SearchFilter` for `search_fields = ['name', 'email']`
(views.py:147): keep rows where every term matches `name` or `email`
case-insensitively; no terms means no filtering. -/
def applySearch (p : ListParams) (q : List Employee) : List Employee :=
  match p.search with
  | none => q
  | some s =>
      let ts := searchTerms s
      q.filter fun e => ts.all fun t => icontains e.name t || icontains e.email t

/-- A sortable field accepted by `ordering_fields = ['name', 'email',
'date_joined']` (views.py:148). -/
inductive OrdField where
  | fname : OrdField
  | femail : OrdField
  | fdate : OrdField
deriving DecidableEq

/-- One `order_by` term: a field with an optional descending marker. -/
structure OrdTerm where
  desc : Bool
  field : OrdField
deriving DecidableEq

/-- The view's default ordering, `ordering = ['-date_joined']`
(views.py:149).  This is what DRF's `OrderingFilter` falls back to when the
request has no valid `ordering` parameter; Django's `order_by` then replaces
the model `Meta.ordering = ['-date_joined', 'name']` (models.py:93) for this
queryset. -/
def defaultOrd : List OrdTerm := [⟨true, OrdField.fdate⟩]

/-- Map a field name from the query string to a sortable field. -/
def fieldOf (s : Str) : Option OrdField :=
  if s = str "name" then some .fname
  else if s = str "email" then some .femail
  else if s = str "date_joined" then some .fdate
  else none

/-- Parse one comma-separated `ordering` term: strip it, read an optional
leading `-`, and drop it when the field is not an allowed ordering field. -/
def parseOrdTerm (t0 : Str) : Option OrdTerm :=
  match pyStrip t0 with
  | 45 :: rest => (fieldOf rest).map (⟨true, ·⟩)
  | t => (fieldOf t).map (⟨false, ·⟩)

/-- DRF `OrderingFilter.get_ordering`: the valid terms of the `ordering`
parameter, or the view default when there are none. -/
def getOrdering (p : ListParams) : List OrdTerm :=
  match p.ordering with
  | none => defaultOrd
  | some s =>
      let ts := (splitBy (fun c => c == 44) s).filterMap parseOrdTerm
      if ts.isEmpty then defaultOrd else ts

/-- Three-way comparison on `Nat`. -/
def natCmp (a b : Nat) : Ordering :=
  if a < b then .lt else if b < a then .gt else .eq

/-- Lexicographic three-way comparison on strings. -/
def strCmp : Str → Str → Ordering
  | [], [] => .eq
  | [], _ :: _ => .lt
  | _ :: _, [] => .gt
  | a :: as, b :: bs =>
      match natCmp a b with
      | .eq => strCmp as bs
      | o => o

/-- Compare two rows on one ordering field. -/
def fieldCmp (f : OrdField) (a b : Employee) : Ordering :=
  match f with
  | .fname => strCmp a.name b.name
  | .femail => strCmp a.email b.email
  | .fdate => natCmp a.date_joined b.date_joined

/-- Compare two rows on one `order_by` term. -/
def termCmp (t : OrdTerm) (a b : Employee) : Ordering :=
  if t.desc then (fieldCmp t.field a b).swap else fieldCmp t.field a b

/-- Lexicographic comparison along an `order_by` key list. -/
def termsCmp : List OrdTerm → Employee → Employee → Ordering
  | [], _, _ => .eq
  | t :: ts, a, b =>
      match termCmp t a b with
      | .eq => termsCmp ts a b
      | o => o

/-- The "comes no later than" relation of an `order_by` key list. -/
def ordLe (ts : List OrdTerm) (a b : Employee) : Prop :=
  termsCmp ts a b ≠ Ordering.gt

instance (ts : List OrdTerm) : DecidableRel (ordLe ts) := fun a b =>
  inferInstanceAs (Decidable (termsCmp ts a b ≠ Ordering.gt))

/-- `order_by` over the stored sequence: a stable sort on the key list (ties
keep the underlying rowid order of the store list). -/
def applyOrdering (p : ListParams) (q : List Employee) : List Employee :=
  List.insertionSort (ordLe (getOrdering p)) q

/-- The three entries of `filter_backends` (views.py:141-145). -/
inductive FilterBackend where
  | djfilter : FilterBackend
  | srch : FilterBackend
  | ordr : FilterBackend

/-- `filter_backends = [DjangoFilterBackend, SearchFilter, OrderingFilter]`. -/
def filter_backends : List FilterBackend := [.djfilter, .srch, .ordr]

/-- One backend's `filter_queryset`. -/
def runBackend (p : ListParams) (q : List Employee) : FilterBackend → List Employee
  | .djfilter => applyDeptRoleFilter p q
  | .srch => applySearch p q
  | .ordr => applyOrdering p q

/-- DRF `GenericAPIView.filter_queryset`: fold the backends, in declaration
order, over the base queryset (views.py:186). -/
def filter_queryset (p : ListParams) (db : List Employee) : List Employee :=
  filter_backends.foldl (runBackend p) db

/-- `EmployeePagination.get_page_size` (pagination.py:3-11 with the
`PageNumberPagination` base behaviour): absent, unparsable, zero or negative
`page_size` falls back to the default `page_size = 10` (the base class parses
with `_positive_int(strict=True)` and swallows the `ValueError`); a positive
value is capped at `max_page_size = 100`. -/
def getPageSize (ps : Option (Option Int)) : Nat :=
  match ps with
  | none => 10
  | some none => 10
  | some (some n) => if n ≤ 0 then 10 else min n.toNat 100

/-- The body of a successful paginated List response: `count`, the
next/previous indicators of the page links, and the serialized `results`. -/
structure ListOk where
  count : Nat
  hasNext : Bool
  hasPrev : Bool
  results : List ListProj
deriving DecidableEq

/-- `EmployeeListCreateView.list` (views.py:182-194): run `filter_queryset`,
then `paginate_queryset` (Django `Paginator` slicing: page `n` holds elements
`[(n-1)·size, n·size)` of the ordered sequence; `num_pages = max 1 ⌈count/size⌉`;
a page number outside `1..num_pages` is a 404 `NotFound`, here `.error ()`),
and serialize the page with `EmployeeListSerializer`. -/
def listEmployees (db : List Employee) (p : ListParams) : Except Unit ListOk :=
  let q := filter_queryset p db
  let size := getPageSize p.page_size
  let pageNum : Int := p.page.getD 1
  let count := q.length
  let numPages : Nat := max 1 ((count + size - 1) / size)
  if pageNum < 1 ∨ (numPages : Int) < pageNum then .error ()
  else
    let pn := pageNum.toNat
    let slice := (q.drop ((pn - 1) * size)).take size
    .ok { count := count, hasNext := pn < numPages, hasPrev := 1 < pn,
          results := slice.map listProjection }

/-! ## Helper lemmas -/

instance {ε α : Type} [DecidableEq ε] [DecidableEq α] : DecidableEq (Except ε α)
  | .error a, .error b =>
      if h : a = b then isTrue (by rw [h])
      else isFalse (by intro hh; cases hh; exact h rfl)
  | .error _, .ok _ => isFalse (by intro h; cases h)
  | .ok _, .error _ => isFalse (by intro h; cases h)
  | .ok a, .ok b =>
      if h : a = b then isTrue (by rw [h])
      else isFalse (by intro hh; cases hh; exact h rfl)

/-- Lowercasing does not create or destroy whitespace. -/
theorem isSpace_pyLowerChar (n : Nat) : isSpace (pyLowerChar n) = isSpace n := by
  unfold pyLowerChar isSpace
  split
  · next h =>
      rw [Bool.eq_iff_iff]
      simp only [Bool.or_eq_true, beq_iff_eq]
      omega
  · rfl

/-- Lowercasing one character is idempotent. -/
theorem pyLowerChar_idem (n : Nat) : pyLowerChar (pyLowerChar n) = pyLowerChar n := by
  unfold pyLowerChar
  by_cases h : 65 ≤ n ∧ n ≤ 90
  · simp only [if_pos h]
    rw [if_neg (by omega)]
  · simp only [if_neg h]

/-- Lowercasing commutes with dropping leading whitespace. -/
theorem dropWhile_map_pyLowerChar :
    ∀ s : Str, (s.map pyLowerChar).dropWhile isSpace = (s.dropWhile isSpace).map pyLowerChar
  | [] => rfl
  | c :: t => by
      simp only [List.map_cons, List.dropWhile_cons, isSpace_pyLowerChar]
      by_cases h : isSpace c
      · simp [h, dropWhile_map_pyLowerChar t]
      · simp [h]

/-- Lowercasing commutes with trimming trailing whitespace. -/
theorem trimRight_pyLower (s : Str) : trimRight (pyLower s) = pyLower (trimRight s) := by
  unfold trimRight pyLower List.rdropWhile
  rw [← List.map_reverse, dropWhile_map_pyLowerChar, List.map_reverse]

/-- `value.lower().strip()` equals `value.strip().lower()`: the spec's
"lowercase then trim" normal form coincides with the code's order. -/
theorem pyNormEmail_eq_lower_strip (s : Str) : pyNormEmail s = pyLower (pyStrip s) := by
  unfold pyNormEmail pyStrip
  rw [show pyLower s = s.map pyLowerChar from rfl, dropWhile_map_pyLowerChar,
    show (s.dropWhile isSpace).map pyLowerChar = pyLower (s.dropWhile isSpace) from rfl,
    trimRight_pyLower]

/-- A prefix of a list whose head survives `dropWhile` also survives it. -/
theorem dropWhile_eq_self_of_front {p : Nat → Bool} {l m : Str} (h : l <+: m)
    (hm : m.dropWhile p = m) : l.dropWhile p = l := by
  obtain ⟨t, rfl⟩ := h
  cases l with
  | nil => rfl
  | cons a l2 =>
      rw [List.cons_append] at hm
      rw [List.dropWhile_cons] at hm ⊢
      by_cases hp : p a = true
      · exfalso
        rw [if_pos hp] at hm
        have h1 := (List.dropWhile_sublist (l := l2 ++ t) p).length_le
        have h2 := congrArg List.length hm
        simp only [List.length_cons, List.length_append] at h1 h2
        omega
      · rw [if_neg hp]

/-- `str.strip()` is idempotent. -/
theorem pyStrip_idem (s : Str) : pyStrip (pyStrip s) = pyStrip s := by
  unfold pyStrip trimRight
  have hu : (s.dropWhile isSpace).dropWhile isSpace = s.dropWhile isSpace :=
    List.dropWhile_idempotent isSpace s
  have hpre : List.rdropWhile isSpace (s.dropWhile isSpace) <+: s.dropWhile isSpace :=
    List.rdropWhile_prefix isSpace (s.dropWhile isSpace)
  rw [dropWhile_eq_self_of_front hpre hu, List.rdropWhile_idempotent]

/-- `str.lower()` is idempotent. -/
theorem pyLower_idem (s : Str) : pyLower (pyLower s) = pyLower s := by
  unfold pyLower
  induction s with
  | nil => rfl
  | cons c t ih => simp [pyLowerChar_idem, ih]

/-- Email normalisation is idempotent. -/
theorem pyNormEmail_idem (s : Str) : pyNormEmail (pyNormEmail s) = pyNormEmail s := by
  have h1 : pyLower (pyStrip (pyLower s)) = pyStrip (pyLower (pyLower s)) :=
    (pyNormEmail_eq_lower_strip (pyLower s)).symm
  show pyStrip (pyLower (pyStrip (pyLower s))) = pyStrip (pyLower s)
  rw [h1, pyLower_idem, pyStrip_idem]

/-- Normalising a normalised email leaves it unchanged. -/
theorem pyNormEmail_fixed {s : Str} (h : s = pyNormEmail s) : pyNormEmail s = s := by
  conv_lhs => rw [h]
  rw [pyNormEmail_idem, ← h]

/-- With pairwise-distinct ids, `find?` by a member's id returns the member. -/
theorem find_by_id {db : List Employee} {r : Employee}
    (hnd : (db.map (·.id)).Nodup) (hr : r ∈ db) :
    db.find? (fun e => e.id == r.id) = some r := by
  induction db with
  | nil => cases hr
  | cons a t ih =>
      rw [List.map_cons, List.nodup_cons] at hnd
      rcases List.mem_cons.mp hr with h | h
      · subst h
        simp [List.find?_cons]
      · have hne : (a.id == r.id) = false := by
          simp only [beq_eq_false_iff_ne, ne_eq]
          intro he
          exact hnd.1 (he ▸ List.mem_map_of_mem (·.id) h)
        rw [List.find?_cons, hne]
        exact ih hnd.2 h

/-- With pairwise-distinct ids, replacing the row at a member's id with the
member itself leaves the store unchanged. -/
theorem map_replace_self {db : List Employee} {r : Employee}
    (hnd : (db.map (·.id)).Nodup) (hr : r ∈ db) :
    (db.map fun e => if e.id == r.id then r else e) = db := by
  induction db with
  | nil => rfl
  | cons a t ih =>
      rw [List.map_cons, List.nodup_cons] at hnd
      rcases List.mem_cons.mp hr with h | h
      · subst h
        simp only [List.map_cons]
        rw [if_pos (show (r.id == r.id) = true by simp)]
        congr 1
        calc List.map (fun e => if (e.id == r.id) = true then r else e) t
            = List.map id t := List.map_congr_left (fun e he => by
              have hne : (e.id == r.id) = false := by
                simp only [beq_eq_false_iff_ne, ne_eq]
                intro hee
                exact hnd.1 (hee ▸ List.mem_map_of_mem (·.id) he)
              rw [hne]
              simp)
          _ = t := List.map_id t
      · have hne : (a.id == r.id) = false := by
          simp only [beq_eq_false_iff_ne, ne_eq]
          intro he
          exact hnd.1 (he ▸ List.mem_map_of_mem (·.id) h)
        simp only [List.map_cons, hne]
        rw [if_neg (by simp)]
        exact congrArg (a :: ·) (ih hnd.2 h)

/-- The backend chain unfolds to filter, then search, then ordering. -/
theorem filter_queryset_eq (p : ListParams) (db : List Employee) :
    filter_queryset p db = applyOrdering p (applySearch p (applyDeptRoleFilter p db)) := rfl

/-- Sorting does not change the number of rows. -/
theorem applyOrdering_length (p : ListParams) (q : List Employee) :
    (applyOrdering p q).length = q.length :=
  (List.perm_insertionSort (ordLe (getOrdering p)) q).length_eq

/-- Swapping a three-way `Nat` comparison flips its arguments. -/
theorem natCmp_swap (a b : Nat) : (natCmp a b).swap = natCmp b a := by
  unfold natCmp
  by_cases h1 : a < b
  · have h2 : ¬ b < a := by omega
    simp [h1, h2, Ordering.swap]
  · by_cases h2 : b < a
    · simp [h1, h2, Ordering.swap]
    · simp [h1, h2, Ordering.swap]

/-- A one-term key list compares by that term. -/
theorem termsCmp_single (t : OrdTerm) (a b : Employee) :
    termsCmp [t] a b = termCmp t a b := by
  unfold termsCmp
  cases h : termCmp t a b <;> simp [h, termsCmp]

/-- The default `order_by('-date_joined')` relation is descending date. -/
theorem ordLe_default_iff (a b : Employee) :
    ordLe defaultOrd a b ↔ b.date_joined ≤ a.date_joined := by
  unfold ordLe
  rw [show defaultOrd = [⟨true, OrdField.fdate⟩] from rfl, termsCmp_single]
  show (natCmp a.date_joined b.date_joined).swap ≠ Ordering.gt ↔ _
  rw [natCmp_swap]
  unfold natCmp
  by_cases h1 : b.date_joined < a.date_joined
  · simp [h1]
    omega
  · by_cases h2 : a.date_joined < b.date_joined
    · simp [h1, h2]
    · simp [h1, h2]
      omega

/-- The page size is always positive. -/
theorem getPageSize_pos (ps : Option (Option Int)) : 1 ≤ getPageSize ps := by
  match ps with
  | none => decide
  | some none => decide
  | some (some n) =>
      show 1 ≤ if n ≤ 0 then 10 else min n.toNat 100
      by_cases h : n ≤ 0
      · rw [if_pos h]
        omega
      · rw [if_neg h, Nat.le_min]
        constructor
        · omega
        · omega

/-- `Employee.clean` only rewrites the email. -/
theorem modelClean_email (x : Employee) :
    (modelClean x).email = if x.email.isEmpty then x.email else pyNormEmail x.email := by
  unfold modelClean
  by_cases h : x.email.isEmpty
  · rw [if_pos h, if_pos h]
  · rw [if_neg h, if_neg h]
    rfl

/-- `Employee.clean` leaves every field other than the email untouched. -/
theorem modelClean_same (x : Employee) :
    (modelClean x).id = x.id ∧ (modelClean x).name = x.name ∧
    (modelClean x).department = x.department ∧ (modelClean x).role = x.role ∧
    (modelClean x).date_joined = x.date_joined := by
  unfold modelClean
  by_cases h : x.email.isEmpty
  · rw [if_pos h]
    exact ⟨rfl, rfl, rfl, rfl, rfl⟩
  · rw [if_neg h]
    exact ⟨rfl, rfl, rfl, rfl, rfl⟩

/-- `Employee.clean` fixes rows whose email is already normalised. -/
theorem modelClean_fixed {x : Employee} (hx : x.email = pyNormEmail x.email) :
    modelClean x = x := by
  unfold modelClean
  by_cases h : x.email.isEmpty
  · rw [if_pos h]
  · rw [if_neg h]
    rw [show pyStrip (pyLower x.email) = x.email from (pyNormEmail_fixed hx)]

/-- Store invariants the service maintains: distinct primary keys, globally
unique emails (the `unique=True` constraint, models.py:39), and emails stored
non-empty in normalised form (`Employee.clean` runs on every save). -/
def storeWf (db : List Employee) : Prop :=
  (db.map (·.id)).Nodup ∧ (db.map (·.email)).Nodup ∧
    ∀ e ∈ db, e.email ≠ [] ∧ e.email = pyNormEmail e.email

/-- On a successful create validation, every field validator succeeded. -/
theorem runCreateValidation_ok {db : List Employee} {req : ApiReq}
    {v : ValidatedCreate} (h : runCreateValidation db req = .ok v) :
    createFieldName req = .ok v.name ∧ createFieldEmail db req = .ok v.email ∧
    createFieldDept req = .ok v.department ∧ createFieldRole req = .ok v.role := by
  unfold runCreateValidation at h
  cases hn : createFieldName req <;> rw [hn] at h <;>
    cases he : createFieldEmail db req <;> rw [he] at h <;>
      cases hd : createFieldDept req <;> rw [hd] at h <;>
        cases hr : createFieldRole req <;> rw [hr] at h <;>
          first
            | (cases h; exact ⟨rfl, rfl, rfl, rfl⟩)
            | simp_all

/-- A failed email field makes create validation fail, with the email message
among the collected field errors. -/
theorem runCreateValidation_email_error {db : List Employee} {req : ApiReq}
    {m : Str} (he : createFieldEmail db req = .error m) :
    ∃ errs, runCreateValidation db req = .error errs ∧ (fEmail, m) ∈ errs := by
  unfold runCreateValidation
  rw [he]
  cases hn : createFieldName req <;>
    cases hd : createFieldDept req <;>
      cases hr : createFieldRole req <;>
        exact ⟨_, rfl, by simp [errOf]⟩

/-- On a successful update validation, every field validator succeeded. -/
theorem runUpdateValidation_ok {db : List Employee} {iid : Nat} {isPatch : Bool}
    {req : ApiReq} {v : ValidatedUpdate}
    (h : runUpdateValidation db iid isPatch req = .ok v) :
    updField isPatch validate_name_upd req.name = .ok v.name ∧
    updField isPatch (validate_email_core db (some iid)) req.email = .ok v.email ∧
    (match req.department with
     | none => Except.ok none
     | some x => (validate_department x).map some) = .ok v.department ∧
    (match req.role with
     | none => Except.ok none
     | some x => (validate_role x).map some) = .ok v.role := by
  unfold runUpdateValidation at h
  cases hn : updField isPatch validate_name_upd req.name <;> rw [hn] at h <;>
    cases he : updField isPatch (validate_email_core db (some iid)) req.email <;> rw [he] at h <;>
      cases hd : (match req.department with
                  | none => Except.ok none
                  | some x => (validate_department x).map some) <;> rw [hd] at h <;>
        cases hr : (match req.role with
                    | none => Except.ok none
                    | some x => (validate_role x).map some) <;> rw [hr] at h <;>
          first
            | (cases h; exact ⟨rfl, rfl, rfl, rfl⟩)
            | simp_all

/-! ## Concrete fixtures used by witnesses and counterexamples -/

/-- A stored employee row with a normalised email. -/
def eAlice : Employee :=
  ⟨1, str "Alice Johnson", str "alice@example.com",
   some (str "Engineering"), some (str "Developer"), 100⟩

/-- A one-row store. -/
def dbOne : List Employee := [eAlice]

/-! ## Claims -/

/-- **C2.**  For every accepted email input `e`, the email validator returns
`lowercase(trim(e))`, and that normalised form is what a successful create
stores; consequently validation is idempotent: an already-normalised email
(equal to its own lowercased, trimmed form) is returned unchanged. -/
theorem c2_email_normalised :
    (∀ (db : List Employee) (exclude : Option Nat) (e v : Str),
        validate_email_core db exclude e = .ok v →
          v = pyLower (pyStrip e) ∧ (e = pyLower (pyStrip e) → v = e)) ∧
    (∀ (db : List Employee) (today : Nat) (req : ApiReq) (e : Str)
        (resp : DetailProj) (db2 : List Employee),
        req.email = some e → createEmployee db today req = (.ok resp, db2) →
          ∃ n, db2 = db ++ [n] ∧ n.email = pyLower (pyStrip e)) := by
  have part1 : ∀ (db : List Employee) (exclude : Option Nat) (e v : Str),
      validate_email_core db exclude e = .ok v →
        v = pyLower (pyStrip e) ∧ (e = pyLower (pyStrip e) → v = e) := by
    intro db exclude e v h
    unfold validate_email_core at h
    split at h
    · exact absurd h (by simp)
    · split at h
      · exact absurd h (by simp)
      · have hv : v = pyStrip (pyLower e) := by
          cases h
          rfl
        constructor
        · rw [hv]
          exact pyNormEmail_eq_lower_strip e
        · intro h2
          rw [hv]
          exact (pyNormEmail_eq_lower_strip e).trans h2.symm
  refine ⟨part1, ?_⟩
  intro db today req e resp db2 hre h
  cases hval : runCreateValidation db req with
  | error es =>
      unfold createEmployee at h
      rw [hval] at h
      simp at h
  | ok v =>
      unfold createEmployee at h
      rw [hval] at h
      rw [Prod.mk.injEq] at h
      refine ⟨_, h.2.symm, ?_⟩
      have hfe := (runCreateValidation_ok hval).2.1
      unfold createFieldEmail at hfe
      rw [hre] at hfe
      have hv1 : v.email = pyLower (pyStrip e) := (part1 db none e v.email hfe).1
      rw [modelClean_email]
      by_cases hemp : (Employee.email
          { id := nextId db, name := v.name, email := v.email,
            department := v.department, role := v.role, date_joined := today }).isEmpty
      · rw [if_pos hemp]
        exact hv1
      · rw [if_neg hemp]
        show pyNormEmail v.email = pyLower (pyStrip e)
        rw [hv1, ← pyNormEmail_eq_lower_strip, pyNormEmail_idem,
          pyNormEmail_eq_lower_strip]

/-- The create request used by the C2 witness: a denormalised email plus
client-supplied `id`/`date_joined`. -/
def bobReq : ApiReq :=
  ⟨some (str "Bob"), some (str "BOB@x.com"), none, none, some 99, some 7⟩

/-- The row stored for `bobReq` in `dbOne` on day 200. -/
def bobRow : Employee := ⟨2, str "Bob", str "bob@x.com", none, none, 200⟩

/-- Witness for C2 at concrete inputs. -/
theorem c2_witness :
    (str "new@x.com" = pyLower (pyStrip (str " NEW@x.com ")) ∧
      (str " NEW@x.com " = pyLower (pyStrip (str " NEW@x.com ")) →
        str "new@x.com" = str " NEW@x.com ")) ∧
    ∃ n, dbOne ++ [bobRow] = dbOne ++ [n] ∧
      n.email = pyLower (pyStrip (str "BOB@x.com")) := by
  constructor
  · exact c2_email_normalised.1 dbOne none (str " NEW@x.com ") (str "new@x.com")
      (by decide)
  · exact c2_email_normalised.2 dbOne 200 bobReq (str "BOB@x.com")
      (detailProjection bobRow) (dbOne ++ [bobRow]) rfl (by decide)

/-- **C1.**  A create request whose email normalises (case-insensitively,
after trimming) to an existing record's stored email fails with a field error
on `email` and creates no record; on update of record `r`, a submitted email
that normalises to `r`'s own stored email is not rejected by the uniqueness
check — which excludes `r.id` — and the PATCH carrying just that email
succeeds without changing the store. -/
theorem c1_email_uniqueness (db : List Employee) (r : Employee) (sub : Str)
    (hwf : storeWf db) (hr : r ∈ db) (hnorm : pyLower (pyStrip sub) = r.email) :
    (∀ (today : Nat) (req : ApiReq), req.email = some sub →
        (createEmployee db today req).2 = db ∧
        ∃ errs, (createEmployee db today req).1 = .error errs ∧
          (fEmail, str "An employee with this email already exists.") ∈ errs) ∧
    validate_email_core db (some r.id) sub = .ok r.email ∧
    updateEmployee db r.id true ⟨none, some sub, none, none, none, none⟩
      = (.ok (detailProjection r), db) := by
  have hre1 : r.email ≠ [] := (hwf.2.2 r hr).1
  have hsub : sub.isEmpty = false := by
    cases sub with
    | nil => exact absurd hnorm.symm hre1
    | cons a t => rfl
  have hv' : pyStrip (pyLower sub) = r.email :=
    (pyNormEmail_eq_lower_strip sub).trans hnorm
  have hany : (db.any fun e => e.email == pyStrip (pyLower sub) &&
      (match (none : Option Nat) with | none => true | some i => e.id != i)) = true :=
    List.any_eq_true.mpr ⟨r, hr, by rw [hv']; simp⟩
  have hdupe : validate_email_core db none sub =
      .error (str "An employee with this email already exists.") := by
    unfold validate_email_core
    rw [if_neg (by simp [hsub])]
    rw [if_pos hany]
  have hcreate : ∀ (today : Nat) (req : ApiReq), req.email = some sub →
      (createEmployee db today req).2 = db ∧
      ∃ errs, (createEmployee db today req).1 = .error errs ∧
        (fEmail, str "An employee with this email already exists.") ∈ errs := by
    intro today req hre
    have hfe : createFieldEmail db req =
        .error (str "An employee with this email already exists.") := by
      unfold createFieldEmail
      rw [hre]
      exact hdupe
    obtain ⟨errs, herrs, hmem⟩ := runCreateValidation_email_error hfe
    have hc : createEmployee db today req = (.error errs, db) := by
      unfold createEmployee
      rw [herrs]
    rw [hc]
    exact ⟨rfl, errs, rfl, hmem⟩
  have hany2 : (db.any fun e => e.email == pyStrip (pyLower sub) &&
      (match (some r.id : Option Nat) with | none => true | some i => e.id != i)) = false := by
    by_cases hq : (db.any fun e => e.email == pyStrip (pyLower sub) &&
        (match (some r.id : Option Nat) with | none => true | some i => e.id != i)) = true
    · exfalso
      obtain ⟨x, hx, hpx⟩ := List.any_eq_true.mp hq
      rw [Bool.and_eq_true] at hpx
      have hxe : x.email = r.email := by
        have h3 := hpx.1
        rw [hv'] at h3
        exact eq_of_beq h3
      have hxid : x.id ≠ r.id := by
        have h4 := hpx.2
        simpa using h4
      exact hxid (congrArg Employee.id (List.inj_on_of_nodup_map hwf.2.1 hx hr hxe))
    · exact Bool.eq_false_iff.mpr hq
  have hvalok : validate_email_core db (some r.id) sub = .ok r.email := by
    unfold validate_email_core
    rw [if_neg (by simp [hsub])]
    rw [if_neg (by simp [hany2])]
    rw [hv']
  have hupd : runUpdateValidation db r.id true ⟨none, some sub, none, none, none, none⟩
      = .ok ⟨none, some r.email, none, none⟩ := by
    simp only [runUpdateValidation, updField, hvalok, Except.map, if_true]
  have hpatch : updateEmployee db r.id true ⟨none, some sub, none, none, none, none⟩
      = (.ok (detailProjection r), db) := by
    unfold updateEmployee
    simp only [find_by_id hwf.1 hr, hupd, Option.getD_some, Option.getD_none]
    rw [show (Employee.mk r.id r.name r.email r.department r.role r.date_joined) = r from rfl]
    rw [modelClean_fixed (hwf.2.2 r hr).2]
    rw [map_replace_self hwf.1 hr]
  exact ⟨hcreate, hvalok, hpatch⟩

/-- Witness for C1 at concrete inputs: `dbOne` stores `alice@example.com`;
the submitted email `" ALICE@Example.com"` normalises to it. -/
theorem c1_witness :
    (createEmployee dbOne 7
        ⟨some (str "Dup"), some (str " ALICE@Example.com"), none, none, none, none⟩).2 = dbOne ∧
    (∃ errs, (createEmployee dbOne 7
        ⟨some (str "Dup"), some (str " ALICE@Example.com"), none, none, none, none⟩).1 = .error errs ∧
      (fEmail, str "An employee with this email already exists.") ∈ errs) ∧
    validate_email_core dbOne (some 1) (str " ALICE@Example.com") = .ok (str "alice@example.com") ∧
    updateEmployee dbOne 1 true ⟨none, some (str " ALICE@Example.com"), none, none, none, none⟩
      = (.ok (detailProjection eAlice), dbOne) := by
  obtain ⟨h1, h2, h3⟩ := c1_email_uniqueness dbOne eAlice (str " ALICE@Example.com")
    (by unfold storeWf; decide) (by decide) (by decide)
  obtain ⟨ha, hb⟩ := h1 7
    ⟨some (str "Dup"), some (str " ALICE@Example.com"), none, none, none, none⟩ rfl
  exact ⟨ha, hb, h2, h3⟩

/-- Decomposition of a successful List response: `count` is the size of the
filtered-and-searched set, and `results` is the page slice of its ordered
version, serialized with the list projection. -/
theorem listEmployees_ok (db : List Employee) (p : ListParams) (resp : ListOk)
    (h : listEmployees db p = .ok resp) :
    resp.count = (applySearch p (applyDeptRoleFilter p db)).length ∧
    resp.results = (((applyOrdering p (applySearch p (applyDeptRoleFilter p db))).drop
        (((p.page.getD 1).toNat - 1) * getPageSize p.page_size)).take
        (getPageSize p.page_size)).map listProjection := by
  simp only [listEmployees] at h
  split at h
  · exact absurd h (by simp)
  · cases h
    constructor
    · show (filter_queryset p db).length = _
      rw [filter_queryset_eq, applyOrdering_length]
    · show (((filter_queryset p db).drop _).take _).map listProjection = _
      rw [filter_queryset_eq]

/-- **C5.**  A List request combining filters, search, ordering and
pagination behaves as the staged composition filter → search → order →
paginate: the pre-pagination `count` equals the size of the
filtered-and-searched set, and the results are the page slice of that set
after ordering. -/
theorem c5_pipeline_order (db : List Employee) (p : ListParams) (resp : ListOk)
    (h : listEmployees db p = .ok resp) :
    resp.count = (applySearch p (applyDeptRoleFilter p db)).length ∧
    resp.results = (((applyOrdering p (applySearch p (applyDeptRoleFilter p db))).drop
        (((p.page.getD 1).toNat - 1) * getPageSize p.page_size)).take
        (getPageSize p.page_size)).map listProjection :=
  listEmployees_ok db p resp h

/-- A second stored row, in department HR, used by the C5 witness. -/
def eCarol : Employee := ⟨2, str "Carol", str "carol@x.com", some (str "HR"), none, 200⟩

/-- The C5 witness request: department filter, search, ordering, pagination. -/
def p5 : ListParams :=
  ⟨some (str "Engineering"), none, some (str "alice"), some (str "name"),
   some 1, some (some 5)⟩

/-- Witness for C5 at a concrete two-row store and a fully loaded request. -/
theorem c5_witness :
    (1 : Nat) = (applySearch p5 (applyDeptRoleFilter p5 [eAlice, eCarol])).length ∧
    [listProjection eAlice] =
      (((applyOrdering p5 (applySearch p5 (applyDeptRoleFilter p5 [eAlice, eCarol]))).drop
          (((p5.page.getD 1).toNat - 1) * getPageSize p5.page_size)).take
        (getPageSize p5.page_size)).map listProjection :=
  c5_pipeline_order [eAlice, eCarol] p5 ⟨1, false, false, [listProjection eAlice]⟩ (by decide)

/-- **C4** (amended).  With no `page_size` parameter a page holds at most 10
records; a requested `page_size` above 100 is silently clamped to 100 (not an
error); and a `page_size` of zero or negative is ignored rather than
rejected: the default of 10 applies and the request succeeds. -/
theorem c4_page_size (p : ListParams) :
    (∀ (db : List Employee) (resp : ListOk), p.page_size = none →
        listEmployees db p = .ok resp → resp.results.length ≤ 10) ∧
    (∀ n : Int, 100 < n → getPageSize (some (some n)) = 100) ∧
    (∀ n : Int, n ≤ 0 → getPageSize (some (some n)) = 10) := by
  refine ⟨?_, ?_, ?_⟩
  · intro db resp hps h
    rw [(listEmployees_ok db p resp h).2, List.length_map]
    calc (((applyOrdering p (applySearch p (applyDeptRoleFilter p db))).drop
            (((p.page.getD 1).toNat - 1) * getPageSize p.page_size)).take
          (getPageSize p.page_size)).length
        ≤ getPageSize p.page_size := List.length_take_le _ _
      _ = 10 := by rw [hps]; rfl
  · intro n hn
    show (if n ≤ 0 then 10 else min n.toNat 100) = 100
    rw [if_neg (by omega)]
    exact Nat.min_eq_right (by omega)
  · intro n hn
    show (if n ≤ 0 then 10 else min n.toNat 100) = 10
    rw [if_pos hn]

/-- An eleven-row store (ids 1..11, equal dates) for pagination checks. -/
def db11 : List Employee :=
  (List.range 11).map fun i => ⟨i + 1, str "n", str "e@x.com", none, none, 5⟩

/-- Counterexample to C4 as stated: a `page_size` of `0` is NOT rejected —
the request succeeds, the invalid value is ignored, and the default page
size 10 applies (`count` = 11, first 10 rows returned, next page offered). -/
theorem c4_counterexample :
    listEmployees db11 ⟨none, none, none, none, none, some (some 0)⟩
      = .ok ⟨11, true, false, (db11.take 10).map listProjection⟩ := by decide

/-- Witness for C4 at concrete inputs. -/
theorem c4_witness :
    ((db11.take 10).map listProjection).length ≤ 10 ∧
    getPageSize (some (some 200)) = 100 ∧
    getPageSize (some (some (-3))) = 10 := by
  obtain ⟨ha, hb, hc⟩ := c4_page_size noParams
  refine ⟨?_, hb 200 (by omega), hc (-3) (by omega)⟩
  exact ha db11 ⟨11, true, false, (db11.take 10).map listProjection⟩ rfl (by decide)

/-- Same-date rows whose store order is not alphabetical: used against C3. -/
def eBeta : Employee := ⟨1, str "b", str "b@x.com", none, none, 50⟩

/-- The alphabetically-first row, stored second. -/
def eAlpha : Employee := ⟨2, str "a", str "a@x.com", none, none, 50⟩

/-- Counterexample to C3 as stated: with no `ordering` parameter, two rows
sharing `date_joined` come back in store order `b, a` — not in the claimed
ascending-name order `a, b`.  The view's `ordering = ['-date_joined']`
(views.py:149) is the default the `OrderingFilter` applies, and it replaces
the model `Meta.ordering = ['-date_joined', 'name']` (models.py:93), so no
name tie-break is requested from the store. -/
theorem c3_counterexample :
    (listEmployees [eBeta, eAlpha] noParams).toOption.map (fun r => r.results.map (·.name))
      = some [str "b", str "a"] ∧
    [str "b", str "a"] ≠ [str "a", str "b"] := by decide

/-- **C3** (amended).  For every List request with no `ordering` parameter,
the returned results are sorted by descending `date_joined`; no name
tie-break is applied — rows with equal dates keep the underlying store
order. -/
theorem c3_default_ordering (db : List Employee) (p : ListParams) (resp : ListOk)
    (hord : p.ordering = none) (h : listEmployees db p = .ok resp) :
    resp.results.Pairwise (fun x y => y.date_joined ≤ x.date_joined) := by
  have hres := (listEmployees_ok db p resp h).2
  have hgo : getOrdering p = defaultOrd := by
    unfold getOrdering
    rw [hord]
  rw [hres]
  unfold applyOrdering
  rw [hgo]
  haveI htot : IsTotal Employee (ordLe defaultOrd) := ⟨fun a b => by
    rw [ordLe_default_iff, ordLe_default_iff]
    omega⟩
  haveI htr : IsTrans Employee (ordLe defaultOrd) := ⟨fun a b c h1 h2 => by
    rw [ordLe_default_iff] at h1 h2 ⊢
    omega⟩
  have hsorted := List.sorted_insertionSort (ordLe defaultOrd)
    (applySearch p (applyDeptRoleFilter p db))
  have hsub : List.Sublist
      (((List.insertionSort (ordLe defaultOrd)
          (applySearch p (applyDeptRoleFilter p db))).drop
            (((p.page.getD 1).toNat - 1) * getPageSize p.page_size)).take
          (getPageSize p.page_size))
      (List.insertionSort (ordLe defaultOrd) (applySearch p (applyDeptRoleFilter p db))) :=
    (List.take_sublist _ _).trans (List.drop_sublist _ _)
  have hpw := List.Pairwise.sublist hsub hsorted
  rw [List.pairwise_map]
  exact hpw.imp (fun hab => (ordLe_default_iff _ _).mp hab)

/-- Witness for C3's amended theorem at the counterexample store. -/
theorem c3_witness :
    (⟨2, false, false, [listProjection eBeta, listProjection eAlpha]⟩ : ListOk).results.Pairwise
      (fun x y => y.date_joined ≤ x.date_joined) :=
  c3_default_ordering [eBeta, eAlpha] noParams
    ⟨2, false, false, [listProjection eBeta, listProjection eAlpha]⟩ rfl (by decide)

/-- A row's `department` is absent or one of the enumeration values. -/
def deptOk (e : Employee) : Bool :=
  match e.department with
  | none => true
  | some s => (choiceKeys departmentChoices).contains s

/-- A row's `role` is absent or one of the enumeration values. -/
def roleOk (e : Employee) : Bool :=
  match e.role with
  | none => true
  | some s => (choiceKeys roleChoices).contains s

/-- An empty filtered set makes the whole List request return the empty
page (count 0, no results, no error). -/
theorem listEmployees_empty (db : List Employee) (p : ListParams)
    (hpage : p.page = none) (hfilter : applyDeptRoleFilter p db = []) :
    listEmployees db p = .ok ⟨0, false, false, []⟩ := by
  have hq : filter_queryset p db = [] := by
    rw [filter_queryset_eq, hfilter]
    cases hs : p.search <;> simp [applySearch, applyOrdering, hs]
  have hsize := getPageSize_pos p.page_size
  have hnp : ((0 : Nat) + getPageSize p.page_size - 1) / getPageSize p.page_size = 0 :=
    Nat.div_eq_of_lt (by omega)
  simp only [listEmployees, hq, hpage, List.length_nil, Option.getD_none, hnp]
  norm_num

/-- **C6** (spec-modelled filter backend).  A List request whose `department`
or `role` value is outside the respective enumeration returns the empty
result set — count 0, empty results — rather than an error, given that the
store only holds enumeration values (the data-model invariant). -/
theorem c6_unrecognised_filter (db : List Employee) (p : ListParams)
    (hinv : ∀ e ∈ db, deptOk e = true ∧ roleOk e = true)
    (hpage : p.page = none) :
    (∀ d, p.department = some d → d ≠ [] → d ∉ choiceKeys departmentChoices →
        listEmployees db p = .ok ⟨0, false, false, []⟩) ∧
    (∀ ro, p.role = some ro → ro ≠ [] → ro ∉ choiceKeys roleChoices →
        listEmployees db p = .ok ⟨0, false, false, []⟩) := by
  constructor
  · intro d hd hne hnot
    apply listEmployees_empty db p hpage
    have hde : d.isEmpty = false := by
      cases d
      · exact absurd rfl hne
      · rfl
    have h1 : db.filter (fun e => e.department == some d) = [] := by
      rw [List.filter_eq_nil_iff]
      intro a ha hbeq
      have hd2 := (hinv a ha).1
      unfold deptOk at hd2
      cases hdep : a.department with
      | none =>
          rw [hdep] at hbeq
          exact absurd hbeq (by simp)
      | some s =>
          rw [hdep] at hd2 hbeq
          have hs : s = d := by simpa using hbeq
          subst hs
          exact hnot (by simpa using hd2)
    have h2 : applyDeptFilter p db = [] := by
      unfold applyDeptFilter
      rw [hd]
      simp only [hde, Bool.false_eq_true, if_false]
      exact h1
    unfold applyDeptRoleFilter
    rw [h2]
    unfold applyRoleFilter
    cases hrole : p.role with
    | none => rfl
    | some rr => simp
  · intro ro hro hne hnot
    apply listEmployees_empty db p hpage
    have hre : ro.isEmpty = false := by
      cases ro
      · exact absurd rfl hne
      · rfl
    have hmem : ∀ e ∈ applyDeptFilter p db, e ∈ db := by
      intro e he
      unfold applyDeptFilter at he
      cases hdd : p.department with
      | none => rw [hdd] at he; exact he
      | some dd =>
          rw [hdd] at he
          revert he
          show e ∈ (if dd.isEmpty then db else db.filter (fun x => x.department == some dd)) → e ∈ db
          intro he
          by_cases hb : dd.isEmpty
          · rw [if_pos hb] at he; exact he
          · rw [if_neg hb] at he; exact (List.mem_filter.mp he).1
    have h1 : (applyDeptFilter p db).filter (fun e => e.role == some ro) = [] := by
      rw [List.filter_eq_nil_iff]
      intro a ha hbeq
      have hr2 := (hinv a (hmem a ha)).2
      unfold roleOk at hr2
      cases hrr : a.role with
      | none =>
          rw [hrr] at hbeq
          exact absurd hbeq (by simp)
      | some s =>
          rw [hrr] at hr2 hbeq
          have hs : s = ro := by simpa using hbeq
          subst hs
          exact hnot (by simpa using hr2)
    unfold applyDeptRoleFilter applyRoleFilter
    rw [hro]
    simp only [hre, Bool.false_eq_true, if_false]
    exact h1

/-- Witness for C6: filtering `dbOne` by the unknown department `Foo` and by
the unknown role `Boss` yields the empty page. -/
theorem c6_witness :
    listEmployees dbOne ⟨some (str "Foo"), none, none, none, none, none⟩
      = .ok ⟨0, false, false, []⟩ ∧
    listEmployees dbOne ⟨none, some (str "Boss"), none, none, none, none⟩
      = .ok ⟨0, false, false, []⟩ := by
  constructor
  · exact (c6_unrecognised_filter dbOne ⟨some (str "Foo"), none, none, none, none, none⟩
      (by decide) rfl).1 (str "Foo") rfl (by decide) (by decide)
  · exact (c6_unrecognised_filter dbOne ⟨none, some (str "Boss"), none, none, none, none⟩
      (by decide) rfl).2 (str "Boss") rfl (by decide) (by decide)

/-- **C7.**  Client-supplied `id` and `date_joined` are ignored on Create and
Update: two requests agreeing on the writable fields produce identical
responses and identical store states whatever their `id`/`date_joined`
carry; on a successful create, the response id is the system-assigned one
and `date_joined` is the creation date. -/
theorem c7_read_only_fields (db : List Employee) (r1 r2 : ApiReq)
    (hn : r1.name = r2.name) (he : r1.email = r2.email)
    (hd : r1.department = r2.department) (hro : r1.role = r2.role) :
    (∀ today, createEmployee db today r1 = createEmployee db today r2) ∧
    (∀ rid isPatch, updateEmployee db rid isPatch r1 = updateEmployee db rid isPatch r2) ∧
    (∀ today resp db2, createEmployee db today r1 = (.ok resp, db2) →
        resp.id = nextId db ∧ resp.date_joined = today) := by
  have h3 : ∀ today resp db2, createEmployee db today r1 = (.ok resp, db2) →
      resp.id = nextId db ∧ resp.date_joined = today := by
    intro today resp db2 h
    unfold createEmployee at h
    cases hval : runCreateValidation db r1 with
    | error es =>
        rw [hval] at h
        simp at h
    | ok v =>
        rw [hval] at h
        rw [Prod.mk.injEq] at h
        injection h.1 with h2
        rw [← h2]
        exact ⟨(modelClean_same _).1, (modelClean_same _).2.2.2.2⟩
  obtain ⟨n1, e1, d1, ro1, i1, dj1⟩ := r1
  obtain ⟨n2, e2, d2, ro2, i2, dj2⟩ := r2
  cases hn
  cases he
  cases hd
  cases hro
  exact ⟨fun today => rfl, fun rid isPatch => rfl, h3⟩

/-- Witness for C7: the same payloads with and without client-supplied
`id`/`date_joined` values. -/
theorem c7_witness :
    createEmployee dbOne 5 ⟨some (str "Zed"), some (str "z@x.com"), none, none, some 42, some 9⟩
      = createEmployee dbOne 5 ⟨some (str "Zed"), some (str "z@x.com"), none, none, none, none⟩ ∧
    updateEmployee dbOne 1 true ⟨some (str "Zed"), none, none, none, some 42, some 9⟩
      = updateEmployee dbOne 1 true ⟨some (str "Zed"), none, none, none, none, none⟩ ∧
    (detailProjection ⟨2, str "Zed", str "z@x.com", none, none, 5⟩).id = nextId dbOne := by
  refine ⟨?_, ?_, ?_⟩
  · exact (c7_read_only_fields dbOne
      ⟨some (str "Zed"), some (str "z@x.com"), none, none, some 42, some 9⟩
      ⟨some (str "Zed"), some (str "z@x.com"), none, none, none, none⟩
      rfl rfl rfl rfl).1 5
  · exact (c7_read_only_fields dbOne
      ⟨some (str "Zed"), none, none, none, some 42, some 9⟩
      ⟨some (str "Zed"), none, none, none, none, none⟩
      rfl rfl rfl rfl).2.1 1 true
  · exact ((c7_read_only_fields dbOne
      ⟨some (str "Zed"), some (str "z@x.com"), none, none, some 42, some 9⟩
      ⟨some (str "Zed"), some (str "z@x.com"), none, none, none, none⟩
      rfl rfl rfl rfl).2.2 5 (detailProjection ⟨2, str "Zed", str "z@x.com", none, none, 5⟩)
      (dbOne ++ [⟨2, str "Zed", str "z@x.com", none, none, 5⟩]) (by decide)).1

/-- **C8.**  On a successful PATCH of record `r`, only supplied fields are
overwritten: every field absent from the request keeps `r`'s value,
`date_joined` is never changed, and every other row of the store is
untouched. -/
theorem c8_patch_frame (db : List Employee) (r : Employee) (req : ApiReq)
    (resp : DetailProj) (db2 : List Employee)
    (hwf : storeWf db) (hr : r ∈ db)
    (h : updateEmployee db r.id true req = (.ok resp, db2)) :
    ∃ r2, db2 = db.map (fun e => if e.id == r.id then r2 else e) ∧
      r2 ∈ db2 ∧ r2.id = r.id ∧
      (req.name = none → r2.name = r.name) ∧
      (req.email = none → r2.email = r.email) ∧
      (req.department = none → r2.department = r.department) ∧
      (req.role = none → r2.role = r.role) ∧
      r2.date_joined = r.date_joined ∧
      (∀ e ∈ db, e.id ≠ r.id → e ∈ db2) := by
  unfold updateEmployee at h
  simp only [find_by_id hwf.1 hr] at h
  cases hval : runUpdateValidation db r.id true req with
  | error es =>
      rw [hval] at h
      simp at h
  | ok v =>
      simp only [hval] at h
      rw [Prod.mk.injEq] at h
      obtain ⟨hne, hee, hde, hre⟩ := runUpdateValidation_ok hval
      refine ⟨modelClean
        { r with
          name := v.name.getD r.name, email := v.email.getD r.email,
          department := v.department.getD r.department, role := v.role.getD r.role },
        h.2.symm, ?_, ?_, ?_, ?_, ?_, ?_, ?_, ?_⟩
      · rw [← h.2]
        exact List.mem_map.mpr ⟨r, hr, by simp⟩
      · exact (modelClean_same _).1
      · intro hqn
        rw [hqn] at hne
        have hv : v.name = none := by
          have h5 : (Except.ok (none : Option Str) : Except Str (Option Str)) = .ok v.name := hne
          injection h5 with h6
          exact h6.symm
        rw [(modelClean_same _).2.1]
        rw [hv]
        rfl
      · intro hqe
        rw [hqe] at hee
        have hv : v.email = none := by
          have h5 : (Except.ok (none : Option Str) : Except Str (Option Str)) = .ok v.email := hee
          injection h5 with h6
          exact h6.symm
        rw [modelClean_email]
        have hXe : (Employee.email
            { r with
              name := v.name.getD r.name, email := v.email.getD r.email,
              department := v.department.getD r.department, role := v.role.getD r.role })
            = r.email := by
          rw [hv]
          rfl
        rw [hXe]
        have hinv := hwf.2.2 r hr
        by_cases hemp : r.email.isEmpty
        · rw [if_pos hemp]
        · rw [if_neg hemp]
          exact pyNormEmail_fixed hinv.2
      · intro hqd
        rw [hqd] at hde
        have hv : v.department = none := by
          have h5 : (Except.ok (none : Option (Option Str)) : Except Str (Option (Option Str)))
              = .ok v.department := hde
          injection h5 with h6
          exact h6.symm
        rw [(modelClean_same _).2.2.1]
        rw [hv]
        rfl
      · intro hqr
        rw [hqr] at hre
        have hv : v.role = none := by
          have h5 : (Except.ok (none : Option (Option Str)) : Except Str (Option (Option Str)))
              = .ok v.role := hre
          injection h5 with h6
          exact h6.symm
        rw [(modelClean_same _).2.2.2.1]
        rw [hv]
        rfl
      · exact (modelClean_same _).2.2.2.2
      · intro e he hene
        rw [← h.2]
        refine List.mem_map.mpr ⟨e, he, ?_⟩
        have : (e.id == r.id) = false := by
          simp only [beq_eq_false_iff_ne, ne_eq]
          exact hene
        rw [this]
        rfl

/-- The role-only PATCH body for the C8 witness. -/
def roleReq : ApiReq := ⟨none, none, none, some (some (str "Manager")), none, none⟩

/-- `eAlice` with the role overwritten, as stored by the witness PATCH. -/
def aliceMgr : Employee :=
  ⟨1, str "Alice Johnson", str "alice@example.com",
   some (str "Engineering"), some (str "Manager"), 100⟩

/-- Witness for C8: a PATCH supplying only `role` keeps every other field. -/
theorem c8_witness :
    ∃ r2, [aliceMgr] = dbOne.map (fun e => if e.id == eAlice.id then r2 else e) ∧
      r2 ∈ [aliceMgr] ∧ r2.id = eAlice.id ∧
      (roleReq.name = none → r2.name = eAlice.name) ∧
      (roleReq.email = none → r2.email = eAlice.email) ∧
      (roleReq.department = none → r2.department = eAlice.department) ∧
      (roleReq.role = none → r2.role = eAlice.role) ∧
      r2.date_joined = eAlice.date_joined ∧
      (∀ e ∈ dbOne, e.id ≠ eAlice.id → e ∈ [aliceMgr]) :=
  c8_patch_frame dbOne eAlice roleReq (detailProjection aliceMgr) [aliceMgr]
    (by unfold storeWf; decide) (by decide) (by decide)

/-- C9's claimed agreement between the two projections of one row: every
field equal, with the detail label paired against the list label. -/
def projectionsAgree (e : Employee) : Prop :=
  (detailProjection e).id = (listProjection e).id ∧
  (detailProjection e).name = (listProjection e).name ∧
  (detailProjection e).email = (listProjection e).email ∧
  (detailProjection e).department = (listProjection e).department ∧
  (detailProjection e).role = (listProjection e).role ∧
  (detailProjection e).date_joined = (listProjection e).date_joined ∧
  (detailProjection e).department_display = some ((listProjection e).department_name) ∧
  (detailProjection e).role_display = some ((listProjection e).role_name)

/-- A stored row with `department` and `role` absent. -/
def eNoDept : Employee := ⟨3, str "Dana", str "dana@x.com", none, none, 10⟩

/-- Counterexample to C9 as stated: on a row with no department the detail
projection serialises the label as `null` (`get_department_display()` is
`None`) while the list projection's label — read from the model property —
is `'Not Assigned'`; the projections do not agree on every value (and the
label keys differ: `department_display` vs `department_name`). -/
theorem c9_counterexample :
    ¬ projectionsAgree eNoDept ∧
    (detailProjection eNoDept).department_display = none ∧
    (listProjection eNoDept).department_name = str "Not Assigned" := by
  unfold projectionsAgree
  refine ⟨?_, rfl, by decide⟩
  intro hA
  exact absurd hA.2.2.2.2.2.2.1 (by decide)

/-- **C9** (amended).  The two projections agree on `id`, `name`, `email`,
`department`, `role` and `date_joined`, and on the display labels whenever
`department`/`role` is present (truthy); but their label keys differ
(`department_display`/`role_display` vs `department_name`/`role_name`) and,
when a value is absent, the detail projection's label is `null` while the
list projection's is `'Not Assigned'`. -/
theorem c9_projections (e : Employee) :
    (detailProjection e).id = (listProjection e).id ∧
    (detailProjection e).name = (listProjection e).name ∧
    (detailProjection e).email = (listProjection e).email ∧
    (detailProjection e).department = (listProjection e).department ∧
    (detailProjection e).role = (listProjection e).role ∧
    (detailProjection e).date_joined = (listProjection e).date_joined ∧
    (truthyOpt e.department = true →
      (detailProjection e).department_display = some ((listProjection e).department_name)) ∧
    (truthyOpt e.role = true →
      (detailProjection e).role_display = some ((listProjection e).role_name)) ∧
    (e.department = none →
      (detailProjection e).department_display = none ∧
      (listProjection e).department_name = str "Not Assigned") ∧
    (e.role = none →
      (detailProjection e).role_display = none ∧
      (listProjection e).role_name = str "Not Assigned") := by
  refine ⟨rfl, rfl, rfl, rfl, rfl, rfl, ?_, ?_, ?_, ?_⟩
  · intro ht
    show departmentRawDisplay e = some (departmentDisplayProp e)
    unfold departmentRawDisplay departmentDisplayProp
    cases hd : e.department with
    | none => rw [hd] at ht; exact absurd ht (by decide)
    | some s =>
        rw [hd] at ht
        rw [if_pos ht]
        simp
  · intro ht
    show roleRawDisplay e = some (roleDisplayProp e)
    unfold roleRawDisplay roleDisplayProp
    cases hd : e.role with
    | none => rw [hd] at ht; exact absurd ht (by decide)
    | some s =>
        rw [hd] at ht
        rw [if_pos ht]
        simp
  · intro hd
    constructor
    · show departmentRawDisplay e = none
      unfold departmentRawDisplay
      rw [hd]
      rfl
    · show departmentDisplayProp e = str "Not Assigned"
      unfold departmentDisplayProp
      rw [hd]
      rfl
  · intro hd
    constructor
    · show roleRawDisplay e = none
      unfold roleRawDisplay
      rw [hd]
      rfl
    · show roleDisplayProp e = str "Not Assigned"
      unfold roleDisplayProp
      rw [hd]
      rfl

/-- Witness for C9 at a row with both labels present. -/
theorem c9_witness :
    (detailProjection eAlice).department_display = some ((listProjection eAlice).department_name) ∧
    (detailProjection eAlice).role_display = some ((listProjection eAlice).role_name) :=
  ⟨(c9_projections eAlice).2.2.2.2.2.2.1 (by decide),
   (c9_projections eAlice).2.2.2.2.2.2.2.1 (by decide)⟩

/-- **C10.**  An empty PATCH on an existing record succeeds, responds with
the record's current full-detail projection, and leaves the whole store
unchanged — the empty PATCH is an identity operation. -/
theorem c10_empty_patch (db : List Employee) (r : Employee)
    (hwf : storeWf db) (hr : r ∈ db) :
    updateEmployee db r.id true emptyReq = (.ok (detailProjection r), db) := by
  have hupd : runUpdateValidation db r.id true emptyReq = .ok ⟨none, none, none, none⟩ := rfl
  unfold updateEmployee
  simp only [find_by_id hwf.1 hr, hupd, Option.getD_none]
  rw [show (Employee.mk r.id r.name r.email r.department r.role r.date_joined) = r from rfl]
  rw [modelClean_fixed (hwf.2.2 r hr).2]
  rw [map_replace_self hwf.1 hr]

/-- Witness for C10 on the one-row store. -/
theorem c10_witness :
    updateEmployee dbOne 1 true emptyReq = (.ok (detailProjection eAlice), dbOne) :=
  c10_empty_patch dbOne eAlice (by unfold storeWf; decide) (by decide)

end EmployeeApi
